import Mathlib

set_option maxRecDepth 4000

/-!
Verification development for the PO-reconciliation core
(`src/reconcile/reconcile.js`, `src/reconcile/detector.js`,
`src/reconcile/parser.js`, `src/reconcile/creditnote.js`,
`src/utils/format.js`).

Shallow embedding conventions:
* JS numbers are modelled as exact rationals (`ℚ`); the code only ever
  compares, adds, multiplies, divides and 2-decimal-rounds prices, so the
  rational model captures the intended arithmetic exactly.
* Cell values are modelled as `String`s: per the data model, a
  `ParsedTable` maps every header to a cell *string* (missing trailing
  cells become the empty string), and a falsy cell is exactly `""`.
* `Math.round(n * 100) / 100` (round half toward +infinity at 2 decimals)
  is `jsRound`.
* JS `Map` (insertion-ordered, set-on-existing-key keeps the original
  position) is an association list with in-place update.
* JS `Array.prototype.sort` (stable, total comparator) is `List.mergeSort`
  with the comparator's `≤`-relation.
-/

namespace PoRecon

/-- `Math.round(n * 100) / 100` — the `round` helper of `reconcile.js`
and `creditnote.js`.  JS `Math.round` rounds half toward +infinity,
i.e. `Math.round x = ⌊x + 1/2⌋`. -/
def jsRound (q : ℚ) : ℚ := (⌊q * 100 + 1/2⌋ : ℤ) / 100

/-- Whole-number rounding `Math.round x = ⌊x + 1/2⌋`, used only to state
what the spec's "whole-number percent" reading of `pctDiff` would be. -/
def jsRound0 (q : ℚ) : ℚ := (⌊q + 1/2⌋ : ℤ)

/-- JS `String.prototype.startsWith`, over the character list. -/
def strStartsWith (s pre : String) : Bool := pre.toList.isPrefixOf s.toList

/-- JS `String.prototype.includes`, over the character list. -/
def strIncludes (s pat : String) : Bool :=
  s.toList.tails.any (fun t => pat.toList.isPrefixOf t)

/-- Value of a digit list, most significant first. -/
def digitsVal (ds : List Char) : ℕ :=
  ds.foldl (fun acc c => acc * 10 + (c.toNat - 48)) 0

/-- Exponent suffix accepted by JS `parseFloat` (`e`/`E`, optional sign,
at least one digit); an ill-formed suffix contributes exponent `0`
because `parseFloat` stops at the longest valid numeric prefix. -/
def parseExponent (cs : List Char) : ℤ :=
  match cs with
  | 'e' :: rest | 'E' :: rest =>
    let (sgn, rest2) : ℤ × List Char :=
      match rest with
      | '-' :: r => (-1, r)
      | '+' :: r => (1, r)
      | _ => (1, rest)
    let ds := rest2.takeWhile Char.isDigit
    if ds.isEmpty then 0 else sgn * (digitsVal ds : ℤ)
  | _ => 0

/-- JS `parseFloat` restricted to its decimal grammar: optional sign,
digits with optional fraction, optional exponent; the longest valid
prefix is parsed and anything after it is ignored; no digits at all is
`NaN`, modelled as `none`.  (The `Infinity` literal is not modelled:
no finite price cell parses to it.) -/
def parseFloat (s : String) : Option ℚ :=
  let cs := s.toList
  let (sgn, cs1) : ℚ × List Char :=
    match cs with
    | '-' :: rest => (-1, rest)
    | '+' :: rest => (1, rest)
    | _ => (1, cs)
  let intPart := cs1.takeWhile Char.isDigit
  let cs2 := cs1.dropWhile Char.isDigit
  let (fracPart, cs3) : List Char × List Char :=
    match cs2 with
    | '.' :: rest => (rest.takeWhile Char.isDigit, rest.dropWhile Char.isDigit)
    | _ => ([], cs2)
  if intPart.isEmpty && fracPart.isEmpty then none
  else
    let mantissa : ℚ := (digitsVal intPart : ℚ) + (digitsVal fracPart : ℚ) / (10 ^ fracPart.length)
    some (sgn * mantissa * (10 : ℚ) ^ parseExponent cs3)

/-- The `replace(/[$,\s]/g, "")` step of `parseNumber`: strip dollar
signs, commas and whitespace everywhere in the string. -/
def stripMoneyChars (s : String) : String :=
  String.mk (s.toList.filter (fun c => !(c == '$' || c == ',' || c.isWhitespace)))

/-- `parseNumber` from `src/utils/format.js`, on cell strings (every
`ParsedTable` value is a string; `null`/missing is the empty string,
which is the `value == null || value === ""` early return).
Parentheses denote negation: `"(123.45)" ↦ -123.45`. -/
def parseNumber (value : String) : Option ℚ :=
  if value = "" then none
  else
    let cleaned := stripMoneyChars value
    if cleaned = "" then none
    else
      let cl := cleaned.toList
      if 3 ≤ cl.length && cl.head? == some '(' && cl.getLast? == some ')' then
        (parseFloat (String.mk (cl.drop 1).dropLast)).map (fun q => -q)
      else parseFloat cleaned

/-- `parseNumber(...) || 1` — JS falsy coalescing: `null` and `0` both
fall back to `1` (used for quantity columns). -/
def orOne (x : Option ℚ) : ℚ :=
  match x with
  | some q => if q = 0 then 1 else q
  | none => 1

/-! ## Column Detector (`src/reconcile/detector.js`) -/

def SKU_ALIASES : List String :=
  ["sku", "item number", "product code", "part number", "item no",
   "item #", "material", "product id", "article", "upc"]

def PRICE_ALIASES : List String :=
  ["price", "unit price", "cost", "amount", "unit cost", "net price",
   "each", "rate", "ext price"]

def NAME_ALIASES : List String :=
  ["product name", "description", "item description",
   "product description", "name", "item name", "product"]

/-- `h.toLowerCase().trim()` — header normalization in `findColumn`. -/
def normHeader (h : String) : String := h.toLower.trim

/-- `findColumn` from `detector.js`.  The JS function builds the array
`normalized` and returns `headers[idx]` for an index found in
`normalized`; the zip pairs each original header with its normalized
form, so `.map (·.1)` is exactly the `headers[idx]` read-back. -/
def findColumn (headers aliases : List String) : Option String :=
  let normalized := headers.map normHeader
  let pairs := headers.zip normalized
  match aliases.findSome? (fun a => (pairs.find? (fun q => q.2 == a)).map (fun q => q.1)) with
  | some h => some h
  | none =>
    match aliases.findSome? (fun a => (pairs.find? (fun q => strIncludes q.2 a)).map (fun q => q.1)) with
    | some h => some h
    | none =>
      aliases.findSome?
        (fun a => (pairs.find? (fun q => strIncludes a q.2 && decide (3 ≤ q.2.length))).map (fun q => q.1))

structure DetectedColumns where
  sku : Option String
  price : Option String
  name : Option String
deriving DecidableEq

/-- `detectColumns` from `detector.js`. -/
def detectColumns (headers : List String) : DetectedColumns :=
  { sku := findColumn headers SKU_ALIASES
    price := findColumn headers PRICE_ALIASES
    name := findColumn headers NAME_ALIASES }

/-- The Column Detector as the specification words it: three
short-circuiting passes over normalized headers — (1) first header
exactly equal to an alias, aliases in declared order; (2) first header
containing an alias as a substring; (3) first header that is a
substring of an alias, gated by header length ≥ 3 — and `none` when
all three passes fail. -/
def findColumnSpec (headers aliases : List String) : Option String :=
  match aliases.findSome? (fun a => headers.find? (fun h => normHeader h == a)) with
  | some h => some h
  | none =>
    match aliases.findSome? (fun a => headers.find? (fun h => strIncludes (normHeader h) a)) with
    | some h => some h
    | none =>
      aliases.findSome?
        (fun a => headers.find? (fun h => strIncludes a (normHeader h) && decide (3 ≤ (normHeader h).length)))

theorem zip_normalized_find (headers : List String) (p : String → Bool) :
    ((headers.zip (headers.map normHeader)).find? (fun q => p q.2)).map (fun q => q.1)
      = headers.find? (fun h => p (normHeader h)) := by
  induction headers with
  | nil => rfl
  | cons h t ih =>
    by_cases hp : p (normHeader h)
    · simp [List.find?, hp]
    · simp only [List.zip, List.zipWith, List.map, List.find?, hp]
      simpa [List.zip] using ih

theorem zipFind_exact (headers : List String) (a : String) :
    ((headers.zip (headers.map normHeader)).find? (fun q => q.2 == a)).map (fun q => q.1)
      = headers.find? (fun h => normHeader h == a) :=
  zip_normalized_find headers (fun n => n == a)

theorem zipFind_contains (headers : List String) (a : String) :
    ((headers.zip (headers.map normHeader)).find? (fun q => strIncludes q.2 a)).map (fun q => q.1)
      = headers.find? (fun h => strIncludes (normHeader h) a) :=
  zip_normalized_find headers (fun n => strIncludes n a)

theorem zipFind_rev (headers : List String) (a : String) :
    ((headers.zip (headers.map normHeader)).find?
        (fun q => strIncludes a q.2 && decide (3 ≤ q.2.length))).map (fun q => q.1)
      = headers.find? (fun h => strIncludes a (normHeader h) && decide (3 ≤ (normHeader h).length)) :=
  zip_normalized_find headers (fun n => strIncludes a n && decide (3 ≤ n.length))

/-- C7: For every headers sequence and every role's alias list, the
Column Detector resolves the role by three short-circuiting passes in
fixed order over normalized (trimmed, lowercased) headers — (1) first
header exactly equal to an alias, taking aliases in declared order;
(2) first header containing an alias as a substring; (3) first header
that is a substring of an alias, only when the header's length is ≥ 3 —
and returns `none` when all three passes fail; ties resolve to the
earliest-declared alias, then the earliest-occurring header, so the
result is a deterministic function of the headers: `findColumn` equals
the pass-by-pass specification `findColumnSpec`. -/
theorem c7_column_detector_passes (headers aliases : List String) :
    findColumn headers aliases = findColumnSpec headers aliases := by
  simp only [findColumn, findColumnSpec, zipFind_exact, zipFind_contains, zipFind_rev]

/-! ## Header Locator (`src/reconcile/parser.js`) -/

/-- One raw cell of a `RawTable`: `none` is JS `null`/`undefined`,
`some s` a cell string (spreadsheet adapters stringify all values). -/
abbrev RawCell := Option String

/-- `cell != null && String(cell).trim() !== ""` — the non-empty-cell
test used throughout `parser.js`. -/
def isNonEmptyCell (c : RawCell) : Bool :=
  match c with
  | some s => !(s.trim == "")
  | none => false

/-- `String(rawRow[i] ?? "")` (also `row[col] != null ? String(row[col]) : ""`). -/
def cellStr (c : RawCell) : String :=
  match c with
  | some s => s
  | none => ""

def HEADER_KEYWORDS : List String :=
  ["sku", "item", "product", "part", "material", "article", "upc", "ordered",
   "price", "cost", "amount", "rate", "each", "total",
   "qty", "quantity", "description", "name",
   "unit"]

/-- The per-row scan of `rankHeaderCandidates`: over the non-empty cells,
count `(keywordHits, shortCells)`; cells whose trimmed lowercase text is
longer than 40 characters are skipped as instruction sentences. -/
def scoreRow (row : List RawCell) : ℕ × ℕ :=
  (row.filter isNonEmptyCell).foldl
    (fun acc c =>
      let val := (cellStr c).toLower.trim
      if 40 < val.length then acc
      else ((acc.1 + (if HEADER_KEYWORDS.any (fun k => strIncludes val k) then 1 else 0)), acc.2 + 1))
    (0, 0)

structure ScoredRow where
  idx : ℕ
  score : ℕ
  shortCells : ℕ
  keywordHits : ℕ
deriving DecidableEq

/-- Comparator of `scored.sort((a, b) => b.score - a.score || b.shortCells - a.shortCells)`
as its `≤`-relation (`a` may come before `b`). -/
def scoredLe (a b : ScoredRow) : Bool :=
  decide (b.score < a.score) || (decide (a.score = b.score) && decide (b.shortCells ≤ a.shortCells))

/-- `rankHeaderCandidates` from `parser.js`: score every row with at
least 2 non-empty cells as `keywordHits * 10 + shortCells`, sort by
score descending then short-cell count descending (JS sort is stable),
and return the row indices best first. -/
def rankHeaderCandidates (rawRows : List (List RawCell)) : List ℕ :=
  let scored := rawRows.enum.filterMap (fun iRow =>
    if (iRow.2.filter isNonEmptyCell).length < 2 then none
    else
      let kh := (scoreRow iRow.2).1
      let sc := (scoreRow iRow.2).2
      some { idx := iRow.1
             score := kh * 10 + sc
             shortCells := sc
             keywordHits := kh })
  (scored.mergeSort scoredLe).map (fun s => s.idx)

/-- `extractHeaders`: the trimmed non-empty cells of a raw row together
with their original column indices (`colMap`). -/
def extractHeaders (rawRow : List RawCell) : List String × List ℕ :=
  (rawRow.enum.filterMap (fun ic =>
    let v := (cellStr ic.2).trim
    if v = "" then none else some (v, ic.1))).unzip

/-- `row[col] != null ? String(row[col]) : ""` with out-of-range reads
(JS `undefined`) also becoming the empty string. -/
def getCell (row : List RawCell) (col : ℕ) : String :=
  match row.get? col with
  | some (some s) => s
  | _ => ""

/-- `buildRows`: the rows strictly below the header row that have at
least one non-empty cell, each projected through `colMap`.  (The JS
version builds a header-keyed object; the projected cell values in
header order carry the same data.) -/
def buildRows (rawRows : List (List RawCell)) (headerIdx : ℕ) (colMap : List ℕ) : List (List String) :=
  ((rawRows.drop (headerIdx + 1)).filter (fun row => row.any isNonEmptyCell)).map
    (fun row => colMap.map (fun col => getCell row col))

structure FoundTable where
  headers : List String
  rows : List (List String)
  autoDetected : Bool
deriving DecidableEq

/-- The first loop of `findBestTable`: walk ranked candidates, accept
the first whose headers resolve both `sku` and `price` and that has at
least one data row below it. -/
def autoLoop (rawRows : List (List RawCell)) : List ℕ → Option FoundTable
  | [] => none
  | idx :: rest =>
    let hd := extractHeaders (rawRows.getD idx [])
    if hd.1.length < 2 then autoLoop rawRows rest
    else
      let detected := detectColumns hd.1
      if detected.sku.isSome && detected.price.isSome then
        let rows := buildRows rawRows idx hd.2
        if 0 < rows.length then some { headers := hd.1
                                       rows := rows
                                       autoDetected := true }
        else autoLoop rawRows rest
      else autoLoop rawRows rest

/-- The fallback loop of `findBestTable`: walk the candidates re-sorted
by header-cell count, accept the first with at least one data row. -/
def fallbackLoop (rawRows : List (List RawCell)) : List ℕ → Option FoundTable
  | [] => none
  | idx :: rest =>
    let hd := extractHeaders (rawRows.getD idx [])
    if hd.1.length < 2 then fallbackLoop rawRows rest
    else
      let rows := buildRows rawRows idx hd.2
      if 0 < rows.length then some { headers := hd.1
                                     rows := rows
                                     autoDetected := false }
      else fallbackLoop rawRows rest

/-- Number of extracted header cells of candidate row `i` — the
`extractHeaders(rawRows[x]).headers.length` sort key of the fallback. -/
def headerCount (rawRows : List (List RawCell)) (i : ℕ) : ℕ :=
  (extractHeaders (rawRows.getD i [])).1.length

/-- Comparator of the fallback sort `(a, b) => colsB - colsA` as its
`≤`-relation. -/
def fallbackLe (rawRows : List (List RawCell)) (a b : ℕ) : Bool :=
  decide (headerCount rawRows b ≤ headerCount rawRows a)

/-- `findBestTable` from `parser.js` (single sheet/CSV entry point). -/
def findBestTable (rawRows : List (List RawCell)) (throwOnFail : Bool) : Except String FoundTable :=
  if rawRows.length < 2 then
    if throwOnFail then .error "File needs at least a header row and one data row."
    else .ok { headers := []
               rows := []
               autoDetected := false }
  else
    let candidates := rankHeaderCandidates rawRows
    match autoLoop rawRows candidates with
    | some ft => .ok ft
    | none =>
      let fallbackCandidates := candidates.mergeSort (fallbackLe rawRows)
      match fallbackLoop rawRows fallbackCandidates with
      | some ft => .ok ft
      | none =>
        if throwOnFail then .error "Could not find a valid header row in the file."
        else .ok { headers := []
                   rows := []
                   autoDetected := false }

/-- The acceptance test the auto-detect walk applies to one candidate
row: its extracted non-empty headers resolve both the `sku` and `price`
roles via the Column Detector, and at least one non-empty data row
exists below it. -/
def autoStep (rawRows : List (List RawCell)) (idx : ℕ) : Option FoundTable :=
  let hd := extractHeaders (rawRows.getD idx [])
  if hd.1.length < 2 then none
  else if (detectColumns hd.1).sku.isSome && (detectColumns hd.1).price.isSome then
    if 0 < (buildRows rawRows idx hd.2).length
    then some { headers := hd.1
                rows := buildRows rawRows idx hd.2
                autoDetected := true }
    else none
  else none

/-- The acceptance test of the fallback walk: the candidate has at
least one non-empty data row below it. -/
def fallbackStep (rawRows : List (List RawCell)) (idx : ℕ) : Option FoundTable :=
  let hd := extractHeaders (rawRows.getD idx [])
  if hd.1.length < 2 then none
  else if 0 < (buildRows rawRows idx hd.2).length
  then some { headers := hd.1
              rows := buildRows rawRows idx hd.2
              autoDetected := false }
  else none

/-- The Header Locator as the (amended) specification words it: walk the
score-ranked candidates in order and accept the first that passes
`autoStep`; if no candidate auto-resolves, fall back to the first
candidate, in order of most header cells (ties broken by candidate
rank), that has at least one non-empty data row below it, returned as a
non-error result for manual column selection; if none qualifies, fail
(or return the empty manual-selection result when not throwing). -/
def findBestTableSpec (rawRows : List (List RawCell)) (throwOnFail : Bool) : Except String FoundTable :=
  if rawRows.length < 2 then
    if throwOnFail then .error "File needs at least a header row and one data row."
    else .ok { headers := []
               rows := []
               autoDetected := false }
  else
    let candidates := rankHeaderCandidates rawRows
    match candidates.findSome? (autoStep rawRows) with
    | some ft => .ok ft
    | none =>
      match (candidates.mergeSort (fallbackLe rawRows)).findSome? (fallbackStep rawRows) with
      | some ft => .ok ft
      | none =>
        if throwOnFail then .error "Could not find a valid header row in the file."
        else .ok { headers := []
                   rows := []
                   autoDetected := false }

theorem autoLoop_eq_findSome (rawRows : List (List RawCell)) (l : List ℕ) :
    autoLoop rawRows l = l.findSome? (autoStep rawRows) := by
  induction l with
  | nil => rfl
  | cons idx rest ih =>
    simp only [autoLoop, autoStep, List.findSome?_cons]
    split_ifs <;> simp [ih]

theorem fallbackLoop_eq_findSome (rawRows : List (List RawCell)) (l : List ℕ) :
    fallbackLoop rawRows l = l.findSome? (fallbackStep rawRows) := by
  induction l with
  | nil => rfl
  | cons idx rest ih =>
    simp only [fallbackLoop, fallbackStep, List.findSome?_cons]
    split_ifs <;> simp [ih]

/-! ## Reconciliation Engine (`src/reconcile/reconcile.js`)

A source row is the projection of one `ParsedTable` row through the
resolved column roles: `sku = row[columns.sku]` etc.  Per the
`ParsedTable` invariant every cell is a string and a missing/falsy cell
is exactly `""`.  `Columns.hasName`/`hasQty` model whether the optional
`name`/`qty` roles were resolved (the JS `columns.name ? ... : ...`
guards). -/

structure SrcRow where
  sku : String := ""
  price : String := ""
  name : String := ""
  qty : String := ""
deriving DecidableEq

structure Columns where
  hasName : Bool := false
  hasQty : Bool := false
deriving DecidableEq

/-- One value of the ERP lookup map. -/
structure ErpEntry where
  price : Option ℚ
  name : String
  qty : ℚ
  matched : Bool
deriving DecidableEq

/-- One output `ReconciliationLine`. -/
structure ResultRow where
  status : String
  sku : String
  erpSku : Option String := none
  name : String
  erpPrice : Option ℚ
  poPrice : Option ℚ
  diff : Option ℚ
  pctDiff : Option ℚ
  action : String
  duplicate : Bool
  poQty : Option ℚ
  erpQty : Option ℚ
  lineTotal : Option ℚ
deriving DecidableEq

/-- `normalizeSku` from `reconcile.js`: `String(sku).trim().toUpperCase()`. -/
def normalizeSku (sku : String) : String := sku.trim.toUpper

/-- `denormalizeSku`: recover the raw spelling of a normalized SKU by
scanning the original rows; fall back to the normalized form. -/
def denormalizeSku (normSku : String) (rows : List SrcRow) : String :=
  match rows.find? (fun r => normalizeSku r.sku == normSku) with
  | some r => r.sku
  | none => normSku

/-- `Map.get`: first (and, by `mapSet`, only) entry with the given key. -/
def mapGet (m : List (String × ErpEntry)) (k : String) : Option ErpEntry :=
  (m.find? (fun p => p.1 == k)).map (fun p => p.2)

/-- `Map.set`: JS `Map` keeps the original insertion position when a
key is overwritten, and appends a genuinely new key at the end. -/
def mapSet (m : List (String × ErpEntry)) (k : String) (v : ErpEntry) : List (String × ErpEntry) :=
  if m.any (fun p => p.1 == k) then
    m.map (fun p => if p.1 == k then (p.1, v) else p)
  else m ++ [(k, v)]

/-- `oracle.matched = true` through the map reference: update the entry
with the given key in place. -/
def markMatched (m : List (String × ErpEntry)) (k : String) : List (String × ErpEntry) :=
  m.map (fun p => if p.1 == k then (p.1, { p.2 with matched := true }) else p)

/-- `findPrefixMatches` from `reconcile.js`: every ERP map entry whose
normalized SKU starts with the PO core number and is strictly longer,
in map (insertion) order. -/
def findPrefixMatches (normPoSku : String) (m : List (String × ErpEntry)) : List (String × ErpEntry) :=
  m.filter (fun p => strStartsWith p.1 normPoSku && !(p.1 == normPoSku))

/-- The ERP index build loop: fold over the ERP rows, skipping falsy
SKUs, recording duplicate normalized SKUs, overwriting on duplicates
(last occurrence wins, original map position kept). -/
def buildErpMap (erpCols : Columns) (erpRows : List SrcRow) :
    List (String × ErpEntry) × List String :=
  erpRows.foldl
    (fun acc row =>
      if row.sku = "" then acc
      else
        let normSku := normalizeSku row.sku
        let dups := if acc.1.any (fun p => p.1 == normSku) then normSku :: acc.2 else acc.2
        (mapSet acc.1 normSku
          { price := parseNumber row.price
            name := if erpCols.hasName then row.name else ""
            qty := if erpCols.hasQty then orOne (parseNumber row.qty) else 1
            matched := false },
         dups))
    ([], [])

/-- The PO duplicate detector: a normalized PO SKU occurring on more
than one (non-falsy) PO row. -/
def isPoDuplicate (poRows : List SrcRow) (normSku : String) : Bool :=
  2 ≤ ((poRows.filter (fun r => !(r.sku == ""))).map (fun r => normalizeSku r.sku)).count normSku

/-- Mutable state of the per-PO-row loop. -/
structure LoopState where
  erpMap : List (String × ErpEntry)
  «matches» : ℕ
  tolerances : ℕ
  exceptions : ℕ
  exposure : ℚ
  warnings : ℕ
  rows : List ResultRow

/-- The shared tail of the exact-match and single-prefix-match paths:
mark the ERP entry matched, then warn on a non-numeric ERP price or
classify the price difference (`Match`/`Tolerance`/`Exception`).
`pfxSku?` is `some k` when the match came via prefix on map key `k`. -/
def finishMatched (tol : ℚ) (erpRows : List SrcRow) (s : LoopState)
    (rawSku poName : String) (isDup : Bool) (poQty poPrice : ℚ)
    (pfxSku? : Option String) (oracleKey : String) (oracle : ErpEntry) : LoopState :=
  let m' := markMatched s.erpMap oracleKey
  match oracle.price with
  | none =>
    let w : ResultRow :=
      { status := "Warning"
        sku := rawSku
        name := if oracle.name = "" then poName else oracle.name
        erpPrice := none
        poPrice := some poPrice
        diff := none
        pctDiff := none
        action := "Non-numeric ERP price"
        duplicate := isDup
        poQty := some poQty
        erpQty := some oracle.qty
        lineTotal := some (jsRound (poPrice * poQty)) }
    { s with erpMap := m'
             warnings := s.warnings + 1
             rows := s.rows ++ [w] }
  | some erpPrice =>
    let diff := jsRound (poPrice - erpPrice)
    let absDiff := |diff|
    let pctDiff : ℚ :=
      if erpPrice ≠ 0 then jsRound (diff / erpPrice * 100)
      else if diff ≠ 0 then 100 else 0
    let erpSku : Option String := pfxSku?.map (fun k => denormalizeSku k erpRows)
    let mkRow : String → String → ResultRow := fun st act =>
      { status := st
        sku := rawSku
        erpSku := erpSku
        name := if oracle.name = "" then poName else oracle.name
        erpPrice := some erpPrice
        poPrice := some poPrice
        diff := some diff
        pctDiff := some pctDiff
        action := if pfxSku?.isSome && (act == "OK") then "OK (prefix match)" else act
        duplicate := isDup
        poQty := some poQty
        erpQty := some oracle.qty
        lineTotal := some (jsRound (poPrice * poQty)) }
    if absDiff = 0 then
      { s with erpMap := m'
               «matches» := s.«matches» + 1
               rows := s.rows ++ [mkRow "Match" "OK"] }
    else if absDiff ≤ tol then
      { s with erpMap := m'
               tolerances := s.tolerances + 1
               rows := s.rows ++ [mkRow "Tolerance" "OK — within tolerance"] }
    else
      { s with erpMap := m'
               exceptions := s.exceptions + 1
               exposure := s.exposure + absDiff
               rows := s.rows ++ [mkRow "Exception" "Review pricing"] }

/-- The body of the `for (const row of poData.rows)` loop of
`reconcile`. -/
def processPoRow (tol : ℚ) (poCols : Columns) (erpRows : List SrcRow)
    (poDup : String → Bool) (erpDups : List String)
    (s : LoopState) (row : SrcRow) : LoopState :=
  if row.sku = "" then s
  else
    let normSku := normalizeSku row.sku
    let poName := if poCols.hasName then row.name else ""
    let poQty : ℚ := if poCols.hasQty then orOne (parseNumber row.qty) else 1
    let isDup := poDup normSku || erpDups.contains normSku
    match parseNumber row.price with
    | none =>
      let w : ResultRow :=
        { status := "Warning"
          sku := row.sku
          name := poName
          erpPrice := none
          poPrice := none
          diff := none
          pctDiff := none
          action := "Non-numeric price — skipped"
          duplicate := isDup
          poQty := some poQty
          erpQty := none
          lineTotal := none }
      { s with warnings := s.warnings + 1
               rows := s.rows ++ [w] }
    | some poPrice =>
      match mapGet s.erpMap normSku with
      | some oracle =>
        finishMatched tol erpRows s row.sku poName isDup poQty poPrice none normSku oracle
      | none =>
        match findPrefixMatches normSku s.erpMap with
        | [x] =>
          finishMatched tol erpRows s row.sku poName isDup poQty poPrice (some x.1) x.1 x.2
        | x :: y :: rest =>
          let w : ResultRow :=
            { status := "Warning"
              sku := row.sku
              name := poName
              erpPrice := none
              poPrice := some poPrice
              diff := none
              pctDiff := none
              action := "Multiple ERP matches: "
                ++ String.intercalate ", " ((x :: y :: rest).map (fun mm => mm.1))
              duplicate := isDup
              poQty := some poQty
              erpQty := none
              lineTotal := some (jsRound (poPrice * poQty)) }
          { s with warnings := s.warnings + 1
                   rows := s.rows ++ [w] }
        | [] =>
          let w : ResultRow :=
            { status := "Not in ERP"
              sku := row.sku
              name := poName
              erpPrice := none
              poPrice := some poPrice
              diff := none
              pctDiff := none
              action := "Review — SKU not found in ERP"
              duplicate := isDup
              poQty := some poQty
              erpQty := none
              lineTotal := some (jsRound (poPrice * poQty)) }
          { s with exceptions := s.exceptions + 1
                   rows := s.rows ++ [w] }

/-- The unmatched-ERP sweep: every entry still unmatched becomes a
`"Not in PO"` row, in map order. -/
def sweepRows (erpRows : List SrcRow) (erpDups : List String)
    (m : List (String × ErpEntry)) : List ResultRow :=
  (m.filter (fun p => !p.2.matched)).map (fun p =>
    { status := "Not in PO"
      sku := denormalizeSku p.1 erpRows
      name := p.2.name
      erpPrice := p.2.price
      poPrice := none
      diff := none
      pctDiff := none
      action := "Review — SKU not in PO"
      duplicate := erpDups.contains p.1
      poQty := none
      erpQty := some p.2.qty
      lineTotal := none })

/-- The fixed status precedence of the output sort (`?? 99` default). -/
def statusOrder (st : String) : ℕ :=
  if st = "Exception" then 0
  else if st = "Not in ERP" then 1
  else if st = "Not in PO" then 2
  else if st = "Warning" then 3
  else if st = "Tolerance" then 4
  else if st = "Match" then 5
  else 99

/-- `a.diff != null ? Math.abs(a.diff) : 0` — the secondary sort key. -/
def absDiffOf (r : ResultRow) : ℚ :=
  match r.diff with
  | some d => |d|
  | none => 0

/-- The sort comparator `(a, b) => sa - sb || db - da` as its
`≤`-relation: `a` may be placed before `b`. -/
def rowLe (a b : ResultRow) : Bool :=
  decide (statusOrder a.status < statusOrder b.status)
    || (decide (statusOrder a.status = statusOrder b.status)
        && decide (absDiffOf b ≤ absDiffOf a))

structure Summary where
  total : ℕ
  «matches» : ℕ
  tolerances : ℕ
  exceptions : ℕ
  exposure : ℚ
  warnings : ℕ
deriving DecidableEq

structure ReconResult where
  summary : Summary
  rows : List ResultRow
deriving DecidableEq

/-- `reconcile` from `reconcile.js`.  (The summary's wall-clock
`timestamp` field is not modelled.) -/
def reconcile (tol : ℚ) (poCols erpCols : Columns)
    (poRows erpRows : List SrcRow) : ReconResult :=
  let built := buildErpMap erpCols erpRows
  let s0 : LoopState :=
    { erpMap := built.1
      «matches» := 0
      tolerances := 0
      exceptions := 0
      exposure := 0
      warnings := 0
      rows := [] }
  let s := poRows.foldl (processPoRow tol poCols erpRows (isPoDuplicate poRows) built.2) s0
  let allRows := s.rows ++ sweepRows erpRows built.2 s.erpMap
  let sorted := allRows.mergeSort rowLe
  let summ : Summary :=
    { total := sorted.length
      «matches» := s.«matches»
      tolerances := s.tolerances
      exceptions := s.exceptions
      exposure := jsRound s.exposure
      warnings := s.warnings }
  { summary := summ
    rows := sorted }

/-! ## Summary / sort invariants of `reconcile` -/

/-- Number of output rows carrying a given status. -/
def countStatus (st : String) (rows : List ResultRow) : ℕ :=
  rows.countP (fun r => r.status == st)

/-- Sum of `|diff|` over the rows with status `Exception` (a `null`
diff counts as `0`). -/
def expoSum (rows : List ResultRow) : ℚ :=
  ((rows.filter (fun r => r.status == "Exception")).map (fun r => |r.diff.getD 0|)).sum

/-- Per-row classification invariant: a row carrying both a PO and an
ERP price was produced by the matched-price path, so its `diff`,
`pctDiff` and `status` are determined by the two prices and the
tolerance. -/
def RowInv (tol : ℚ) (r : ResultRow) : Prop :=
  ∀ p ep, r.poPrice = some p → r.erpPrice = some ep →
    r.diff = some (jsRound (p - ep)) ∧
    r.pctDiff = some (if ep ≠ 0 then jsRound (jsRound (p - ep) / ep * 100)
      else if jsRound (p - ep) ≠ 0 then 100 else 0) ∧
    r.status = (if |jsRound (p - ep)| = 0 then "Match"
      else if |jsRound (p - ep)| ≤ tol then "Tolerance" else "Exception")

/-- Loop invariant tying the running counters to the emitted rows. -/
def StateInv (tol : ℚ) (s : LoopState) : Prop :=
  s.«matches» = countStatus "Match" s.rows ∧
  s.tolerances = countStatus "Tolerance" s.rows ∧
  s.warnings = countStatus "Warning" s.rows ∧
  s.exceptions = countStatus "Exception" s.rows + countStatus "Not in ERP" s.rows ∧
  s.exposure = expoSum s.rows ∧
  ∀ r ∈ s.rows, RowInv tol r

theorem countStatus_append (st : String) (rows : List ResultRow) (r : ResultRow) :
    countStatus st (rows ++ [r]) = countStatus st rows + (if r.status = st then 1 else 0) := by
  simp [countStatus, List.countP_append, List.countP_cons]

theorem expoSum_append (rows : List ResultRow) (r : ResultRow) :
    expoSum (rows ++ [r])
      = expoSum rows + (if r.status = "Exception" then |r.diff.getD 0| else 0) := by
  cases hb : r.status == "Exception" with
  | false =>
    have h : ¬ r.status = "Exception" := by simpa using hb
    simp [expoSum, List.filter_append, List.filter, hb, h]
  | true =>
    have h : r.status = "Exception" := by simpa using hb
    simp [expoSum, List.filter_append, List.filter, hb, h]

theorem stateInv_finishMatched (tol : ℚ) (erpRows : List SrcRow) (s : LoopState)
    (rawSku poName : String) (isDup : Bool) (poQty poPrice : ℚ)
    (pfxSku? : Option String) (oracleKey : String) (oracle : ErpEntry)
    (h : StateInv tol s) :
    StateInv tol (finishMatched tol erpRows s rawSku poName isDup poQty poPrice pfxSku? oracleKey oracle) := by
  obtain ⟨hm, ht, hw, he, hx, hr⟩ := h
  cases hop : oracle.price with
  | none =>
    simp only [finishMatched, hop]
    refine ⟨?_, ?_, ?_, ?_, ?_, ?_⟩
    · simp [countStatus_append, hm]
    · simp [countStatus_append, ht]
    · simp [countStatus_append, hw]
    · simp [countStatus_append, he]
    · simp [expoSum_append, hx]
    · intro r hmem
      rcases List.mem_append.mp hmem with hmem | hmem
      · exact hr r hmem
      · rw [List.mem_singleton] at hmem
        subst hmem
        intro p ep hp hep
        exact absurd hep (by simp)
  | some erpPrice =>
    simp only [finishMatched, hop]
    by_cases h0 : |jsRound (poPrice - erpPrice)| = 0
    · rw [if_pos h0]
      refine ⟨?_, ?_, ?_, ?_, ?_, ?_⟩
      · simp [countStatus_append, hm]
      · simp [countStatus_append, ht]
      · simp [countStatus_append, hw]
      · simp [countStatus_append, he]
      · simp [expoSum_append, hx]
      · intro r hmem
        rcases List.mem_append.mp hmem with hmem | hmem
        · exact hr r hmem
        · rw [List.mem_singleton] at hmem
          subst hmem
          intro p ep hp hep
          have hp' : poPrice = p := by simpa using hp
          have hep' : erpPrice = ep := by simpa using hep
          subst hp'; subst hep'
          refine ⟨rfl, by simp only [ite_not], ?_⟩
          rw [if_pos h0]
    · by_cases h1 : |jsRound (poPrice - erpPrice)| ≤ tol
      · rw [if_neg h0, if_pos h1]
        refine ⟨?_, ?_, ?_, ?_, ?_, ?_⟩
        · simp [countStatus_append, hm]
        · simp [countStatus_append, ht]
        · simp [countStatus_append, hw]
        · simp [countStatus_append, he]
        · simp [expoSum_append, hx]
        · intro r hmem
          rcases List.mem_append.mp hmem with hmem | hmem
          · exact hr r hmem
          · rw [List.mem_singleton] at hmem
            subst hmem
            intro p ep hp hep
            have hp' : poPrice = p := by simpa using hp
            have hep' : erpPrice = ep := by simpa using hep
            subst hp'; subst hep'
            refine ⟨rfl, by simp only [ite_not], ?_⟩
            rw [if_neg h0, if_pos h1]
      · rw [if_neg h0, if_neg h1]
        refine ⟨?_, ?_, ?_, ?_, ?_, ?_⟩
        · simp [countStatus_append, hm]
        · simp [countStatus_append, ht]
        · simp [countStatus_append, hw]
        · simp [countStatus_append, he]; omega
        · simp [expoSum_append, hx]
        · intro r hmem
          rcases List.mem_append.mp hmem with hmem | hmem
          · exact hr r hmem
          · rw [List.mem_singleton] at hmem
            subst hmem
            intro p ep hp hep
            have hp' : poPrice = p := by simpa using hp
            have hep' : erpPrice = ep := by simpa using hep
            subst hp'; subst hep'
            refine ⟨rfl, by simp only [ite_not], ?_⟩
            rw [if_neg h0, if_neg h1]

theorem stateInv_push_warning (tol : ℚ) (s : LoopState) (w : ResultRow)
    (hst : w.status = "Warning") (hrv : RowInv tol w) (h : StateInv tol s) :
    StateInv tol { s with warnings := s.warnings + 1
                          rows := s.rows ++ [w] } := by
  obtain ⟨hm, ht, hw, he, hx, hr⟩ := h
  refine ⟨?_, ?_, ?_, ?_, ?_, ?_⟩
  · simp [countStatus_append, hm, hst]
  · simp [countStatus_append, ht, hst]
  · simp [countStatus_append, hw, hst]
  · simp [countStatus_append, he, hst]
  · simp [expoSum_append, hx, hst]
  · intro r hmem
    rcases List.mem_append.mp hmem with hmem | hmem
    · exact hr r hmem
    · rw [List.mem_singleton] at hmem
      subst hmem
      exact hrv

theorem stateInv_push_notInErp (tol : ℚ) (s : LoopState) (w : ResultRow)
    (hst : w.status = "Not in ERP") (hrv : RowInv tol w) (h : StateInv tol s) :
    StateInv tol { s with exceptions := s.exceptions + 1
                          rows := s.rows ++ [w] } := by
  obtain ⟨hm, ht, hw, he, hx, hr⟩ := h
  refine ⟨?_, ?_, ?_, ?_, ?_, ?_⟩
  · simp [countStatus_append, hm, hst]
  · simp [countStatus_append, ht, hst]
  · simp [countStatus_append, hw, hst]
  · simp [countStatus_append, he, hst]
    omega
  · simp [expoSum_append, hx, hst]
  · intro r hmem
    rcases List.mem_append.mp hmem with hmem | hmem
    · exact hr r hmem
    · rw [List.mem_singleton] at hmem
      subst hmem
      exact hrv

theorem stateInv_processPoRow (tol : ℚ) (poCols : Columns) (erpRows : List SrcRow)
    (poDup : String → Bool) (erpDups : List String) (s : LoopState) (row : SrcRow)
    (h : StateInv tol s) :
    StateInv tol (processPoRow tol poCols erpRows poDup erpDups s row) := by
  by_cases hsku : row.sku = ""
  · simpa only [processPoRow, if_pos hsku] using h
  · cases hpn : parseNumber row.price with
    | none =>
      simp only [processPoRow, if_neg hsku, hpn]
      exact stateInv_push_warning tol s _ rfl
        (fun p ep hp hep => absurd hp (by simp)) h
    | some poPrice =>
      cases hmg : mapGet s.erpMap (normalizeSku row.sku) with
      | some oracle =>
        simp only [processPoRow, if_neg hsku, hpn, hmg]
        exact stateInv_finishMatched tol erpRows s row.sku _ _ _ poPrice none _ oracle h
      | none =>
        cases hfp : findPrefixMatches (normalizeSku row.sku) s.erpMap with
        | nil =>
          simp only [processPoRow, if_neg hsku, hpn, hmg, hfp]
          exact stateInv_push_notInErp tol s _ rfl
            (fun p ep hp hep => absurd hep (by simp)) h
        | cons x xs =>
          cases xs with
          | nil =>
            simp only [processPoRow, if_neg hsku, hpn, hmg, hfp]
            exact stateInv_finishMatched tol erpRows s row.sku _ _ _ poPrice (some x.1) x.1 x.2 h
          | cons y rest =>
            simp only [processPoRow, if_neg hsku, hpn, hmg, hfp]
            exact stateInv_push_warning tol s _ rfl
              (fun p ep hp hep => absurd hep (by simp)) h

theorem stateInv_foldl (tol : ℚ) (poCols : Columns) (erpRows : List SrcRow)
    (poDup : String → Bool) (erpDups : List String) (poRows : List SrcRow) (s : LoopState)
    (h : StateInv tol s) :
    StateInv tol (poRows.foldl (processPoRow tol poCols erpRows poDup erpDups) s) := by
  induction poRows generalizing s with
  | nil => exact h
  | cons r t ih =>
    exact ih _ (stateInv_processPoRow tol poCols erpRows poDup erpDups s r h)

theorem mem_sweepRows_status (erpRows : List SrcRow) (dups : List String)
    (m : List (String × ErpEntry)) :
    ∀ r ∈ sweepRows erpRows dups m, r.status = "Not in PO" ∧ r.poPrice = none := by
  intro r hr
  simp only [sweepRows, List.mem_map] at hr
  obtain ⟨p, hp, rfl⟩ := hr
  exact ⟨rfl, rfl⟩

theorem countStatus_append_sweep (st : String) (l1 l2 : List ResultRow)
    (hne : ¬ (st = "Not in PO")) (hall : ∀ r ∈ l2, r.status = "Not in PO") :
    countStatus st (l1 ++ l2) = countStatus st l1 := by
  unfold countStatus
  rw [List.countP_append]
  have hz : l2.countP (fun r => r.status == st) = 0 := by
    rw [List.countP_eq_zero]
    intro a ha
    rw [hall a ha]
    simp only [beq_iff_eq]
    exact fun h' => hne h'.symm
  omega

theorem expoSum_append_sweep (l1 l2 : List ResultRow)
    (hall : ∀ r ∈ l2, r.status = "Not in PO") :
    expoSum (l1 ++ l2) = expoSum l1 := by
  unfold expoSum
  rw [List.filter_append]
  have hz : l2.filter (fun r => r.status == "Exception") = [] := by
    rw [List.filter_eq_nil_iff]
    intro a ha
    rw [hall a ha]
    decide
  simp [hz]

theorem pipeline_inv (tol : ℚ) (erpRows : List SrcRow) (erpDups : List String)
    (s : LoopState) (h : StateInv tol s) :
    s.«matches» = countStatus "Match" ((s.rows ++ sweepRows erpRows erpDups s.erpMap).mergeSort rowLe) ∧
    s.tolerances = countStatus "Tolerance" ((s.rows ++ sweepRows erpRows erpDups s.erpMap).mergeSort rowLe) ∧
    s.warnings = countStatus "Warning" ((s.rows ++ sweepRows erpRows erpDups s.erpMap).mergeSort rowLe) ∧
    s.exceptions = countStatus "Exception" ((s.rows ++ sweepRows erpRows erpDups s.erpMap).mergeSort rowLe)
      + countStatus "Not in ERP" ((s.rows ++ sweepRows erpRows erpDups s.erpMap).mergeSort rowLe) ∧
    s.exposure = expoSum ((s.rows ++ sweepRows erpRows erpDups s.erpMap).mergeSort rowLe) ∧
    ∀ r ∈ (s.rows ++ sweepRows erpRows erpDups s.erpMap).mergeSort rowLe, RowInv tol r := by
  obtain ⟨hm, ht, hw, he, hx, hr⟩ := h
  have hsw := mem_sweepRows_status erpRows erpDups s.erpMap
  have hall : ∀ r ∈ sweepRows erpRows erpDups s.erpMap, r.status = "Not in PO" :=
    fun r hmem => (hsw r hmem).1
  have hperm :
      ((s.rows ++ sweepRows erpRows erpDups s.erpMap).mergeSort rowLe).Perm
        (s.rows ++ sweepRows erpRows erpDups s.erpMap) :=
    List.mergeSort_perm _ _
  have hcount : ∀ st, countStatus st ((s.rows ++ sweepRows erpRows erpDups s.erpMap).mergeSort rowLe)
      = countStatus st (s.rows ++ sweepRows erpRows erpDups s.erpMap) :=
    fun st => hperm.countP_eq _
  have hexpo : expoSum ((s.rows ++ sweepRows erpRows erpDups s.erpMap).mergeSort rowLe)
      = expoSum (s.rows ++ sweepRows erpRows erpDups s.erpMap) := by
    unfold expoSum
    exact ((hperm.filter _).map _).sum_eq
  refine ⟨?_, ?_, ?_, ?_, ?_, ?_⟩
  · rw [hcount, countStatus_append_sweep _ _ _ (by decide) hall]
    exact hm
  · rw [hcount, countStatus_append_sweep _ _ _ (by decide) hall]
    exact ht
  · rw [hcount, countStatus_append_sweep _ _ _ (by decide) hall]
    exact hw
  · rw [hcount, hcount, countStatus_append_sweep _ _ _ (by decide) hall,
      countStatus_append_sweep _ _ _ (by decide) hall]
    exact he
  · rw [hexpo, expoSum_append_sweep _ _ hall]
    exact hx
  · intro r hmem
    rw [hperm.mem_iff] at hmem
    rcases List.mem_append.mp hmem with hmem | hmem
    · exact hr r hmem
    · intro p ep hp hep
      exact absurd (hp ▸ (hsw r hmem).2) (by simp)

theorem reconcile_inv (tol : ℚ) (poCols erpCols : Columns) (poRows erpRows : List SrcRow) :
    (reconcile tol poCols erpCols poRows erpRows).summary.total
        = (reconcile tol poCols erpCols poRows erpRows).rows.length ∧
    (reconcile tol poCols erpCols poRows erpRows).summary.«matches»
        = countStatus "Match" (reconcile tol poCols erpCols poRows erpRows).rows ∧
    (reconcile tol poCols erpCols poRows erpRows).summary.tolerances
        = countStatus "Tolerance" (reconcile tol poCols erpCols poRows erpRows).rows ∧
    (reconcile tol poCols erpCols poRows erpRows).summary.warnings
        = countStatus "Warning" (reconcile tol poCols erpCols poRows erpRows).rows ∧
    (reconcile tol poCols erpCols poRows erpRows).summary.exceptions
        = countStatus "Exception" (reconcile tol poCols erpCols poRows erpRows).rows
          + countStatus "Not in ERP" (reconcile tol poCols erpCols poRows erpRows).rows ∧
    (reconcile tol poCols erpCols poRows erpRows).summary.exposure
        = jsRound (expoSum (reconcile tol poCols erpCols poRows erpRows).rows) ∧
    ∀ r ∈ (reconcile tol poCols erpCols poRows erpRows).rows, RowInv tol r := by
  have base : StateInv tol
      { erpMap := (buildErpMap erpCols erpRows).1, «matches» := 0, tolerances := 0
        exceptions := 0, exposure := 0, warnings := 0, rows := [] } := by
    refine ⟨rfl, rfl, rfl, rfl, rfl, ?_⟩
    intro r hmem
    exact absurd hmem (List.not_mem_nil r)
  have hfold := stateInv_foldl tol poCols erpRows (isPoDuplicate poRows)
    (buildErpMap erpCols erpRows).2 poRows _ base
  have hp := pipeline_inv tol erpRows (buildErpMap erpCols erpRows).2 _ hfold
  exact ⟨rfl, hp.1, hp.2.1, hp.2.2.1, hp.2.2.2.1,
    congrArg jsRound hp.2.2.2.2.1, hp.2.2.2.2.2⟩

theorem rowLe_trans : ∀ a b c : ResultRow, rowLe a b → rowLe b c → rowLe a c := by
  intro a b c hab hbc
  simp only [rowLe, Bool.or_eq_true, Bool.and_eq_true, decide_eq_true_eq] at hab hbc ⊢
  rcases hab with hab | ⟨hab1, hab2⟩
  · rcases hbc with hbc | ⟨hbc1, hbc2⟩
    · exact Or.inl (by omega)
    · exact Or.inl (by omega)
  · rcases hbc with hbc | ⟨hbc1, hbc2⟩
    · exact Or.inl (by omega)
    · exact Or.inr ⟨by omega, le_trans hbc2 hab2⟩

theorem rowLe_total : ∀ a b : ResultRow, rowLe a b || rowLe b a := by
  intro a b
  simp only [rowLe, Bool.or_eq_true, Bool.and_eq_true, decide_eq_true_eq]
  rcases Nat.lt_trichotomy (statusOrder a.status) (statusOrder b.status) with h | h | h
  · exact Or.inl (Or.inl h)
  · rcases le_total (absDiffOf b) (absDiffOf a) with h2 | h2
    · exact Or.inl (Or.inr ⟨h, h2⟩)
    · exact Or.inr (Or.inr ⟨h.symm, h2⟩)
  · exact Or.inr (Or.inl h)

/-- The pairwise ordering the spec's sort invariant asks of adjacent
rows: non-decreasing status precedence and, within equal precedence,
non-increasing `|diff|` (a `null` diff counting as `0`). -/
def rowsOrdered (a b : ResultRow) : Prop :=
  statusOrder a.status ≤ statusOrder b.status ∧
    (statusOrder a.status = statusOrder b.status → absDiffOf b ≤ absDiffOf a)

/-- C4: For every reconciliation result and every pair of adjacent
output rows `a`, `b` (`a` before `b`), `statusOrder a ≤ statusOrder b`
under the precedence Exception(0) < "Not in ERP"(1) < "Not in PO"(2) <
Warning(3) < Tolerance(4) < Match(5), and when the orders are equal,
`|diff a| ≥ |diff b|` with a null diff counting as 0. -/
theorem c4_sort_invariant (tol : ℚ) (poCols erpCols : Columns)
    (poRows erpRows : List SrcRow) :
    List.Chain' rowsOrdered (reconcile tol poCols erpCols poRows erpRows).rows := by
  have hs := List.sorted_mergeSort rowLe_trans rowLe_total
    ((poRows.foldl (processPoRow tol poCols erpRows (isPoDuplicate poRows)
        (buildErpMap erpCols erpRows).2)
      { erpMap := (buildErpMap erpCols erpRows).1, «matches» := 0, tolerances := 0
        exceptions := 0, exposure := 0, warnings := 0, rows := [] }).rows
      ++ sweepRows erpRows (buildErpMap erpCols erpRows).2
        (poRows.foldl (processPoRow tol poCols erpRows (isPoDuplicate poRows)
            (buildErpMap erpCols erpRows).2)
          { erpMap := (buildErpMap erpCols erpRows).1, «matches» := 0, tolerances := 0
            exceptions := 0, exposure := 0, warnings := 0, rows := [] }).erpMap)
  have hchain := hs.chain'
  refine hchain.imp ?_
  intro a b hab
  simp only [rowLe, Bool.or_eq_true, Bool.and_eq_true, decide_eq_true_eq] at hab
  rcases hab with hab | ⟨hab1, hab2⟩
  · exact ⟨Nat.le_of_lt hab, fun heq => absurd heq (by omega)⟩
  · exact ⟨Nat.le_of_eq hab1, fun _ => hab2⟩

/-- The five mutually exclusive counted statuses can cover at most all
rows. -/
theorem counts_le_length (rows : List ResultRow) :
    countStatus "Match" rows + countStatus "Tolerance" rows
      + (countStatus "Exception" rows + countStatus "Not in ERP" rows)
      + countStatus "Warning" rows ≤ rows.length := by
  induction rows with
  | nil => simp [countStatus]
  | cons r t ih =>
    have key : (if r.status == "Match" then 1 else 0)
        + (if r.status == "Tolerance" then 1 else 0)
        + ((if r.status == "Exception" then 1 else 0)
          + (if r.status == "Not in ERP" then 1 else 0))
        + (if r.status == "Warning" then 1 else 0) ≤ 1 := by
      by_cases h1 : r.status = "Match"
      · simp [h1]
      · by_cases h2 : r.status = "Tolerance"
        · simp [h2]
        · by_cases h3 : r.status = "Exception"
          · simp [h3]
          · by_cases h4 : r.status = "Not in ERP"
            · simp [h4]
            · by_cases h5 : r.status = "Warning"
              · simp [h5]
              · simp [h1, h2, h3, h4, h5]
    simp only [countStatus, List.countP_cons, List.length_cons] at ih ⊢
    omega

theorem expoSum_nonneg (rows : List ResultRow) : 0 ≤ expoSum rows := by
  apply List.sum_nonneg
  intro x hx
  simp only [List.mem_map] at hx
  obtain ⟨r, -, rfl⟩ := hx
  exact abs_nonneg _

theorem jsRound_nonneg (q : ℚ) (h : 0 ≤ q) : 0 ≤ jsRound q := by
  unfold jsRound
  have h1 : (0:ℤ) ≤ ⌊q * 100 + 1/2⌋ := by
    apply Int.le_floor.mpr
    push_cast
    positivity
  have h2 : (0:ℚ) ≤ (⌊q * 100 + 1/2⌋ : ℤ) := by exact_mod_cast h1
  exact div_nonneg h2 (by norm_num)

/-- C3: For every reconciliation result, `summary.total` equals the
number of output rows, and `matches + tolerances + exceptions +
warnings ≤ total`; the `"Not in PO"` sweep rows are included in `total`
but never increment `exceptions`, which counts exactly the
`Exception`-status and `"Not in ERP"`-status rows. -/
theorem c3_summary_tally (tol : ℚ) (poCols erpCols : Columns)
    (poRows erpRows : List SrcRow) :
    (reconcile tol poCols erpCols poRows erpRows).summary.total
        = (reconcile tol poCols erpCols poRows erpRows).rows.length ∧
    (reconcile tol poCols erpCols poRows erpRows).summary.«matches»
        + (reconcile tol poCols erpCols poRows erpRows).summary.tolerances
        + (reconcile tol poCols erpCols poRows erpRows).summary.exceptions
        + (reconcile tol poCols erpCols poRows erpRows).summary.warnings
      ≤ (reconcile tol poCols erpCols poRows erpRows).summary.total ∧
    (reconcile tol poCols erpCols poRows erpRows).summary.exceptions
        = countStatus "Exception" (reconcile tol poCols erpCols poRows erpRows).rows
          + countStatus "Not in ERP" (reconcile tol poCols erpCols poRows erpRows).rows := by
  obtain ⟨h1, h2, h3, h4, h5, -, -⟩ := reconcile_inv tol poCols erpCols poRows erpRows
  refine ⟨h1, ?_, h5⟩
  rw [h1, h2, h3, h4, h5]
  have hc := counts_le_length (reconcile tol poCols erpCols poRows erpRows).rows
  omega

/-- C5: For every reconciliation result, `summary.exposure` is the
2-decimal rounding of the sum of `|diff|` over exactly the
`Exception`-status output rows, and is non-negative. -/
theorem c5_exposure_invariant (tol : ℚ) (poCols erpCols : Columns)
    (poRows erpRows : List SrcRow) :
    (reconcile tol poCols erpCols poRows erpRows).summary.exposure
        = jsRound (expoSum (reconcile tol poCols erpCols poRows erpRows).rows) ∧
    0 ≤ (reconcile tol poCols erpCols poRows erpRows).summary.exposure := by
  obtain ⟨-, -, -, -, -, h6, -⟩ := reconcile_inv tol poCols erpCols poRows erpRows
  exact ⟨h6, h6 ▸ jsRound_nonneg _ (expoSum_nonneg _)⟩

/-- C2: For every matched PO row with numeric PO and ERP prices (the
output rows carrying both prices), with `diff = jsRound (p - ep)`:
the row's status is `Match` exactly when `|diff| = 0`, `Tolerance`
exactly when `0 < |diff| ≤ tolerance`, and `Exception` otherwise. -/
theorem c2_price_classification (tol : ℚ) (poCols erpCols : Columns)
    (poRows erpRows : List SrcRow) (r : ResultRow) (p ep : ℚ)
    (hmem : r ∈ (reconcile tol poCols erpCols poRows erpRows).rows)
    (hpo : r.poPrice = some p) (herp : r.erpPrice = some ep) :
    r.diff = some (jsRound (p - ep)) ∧
    (r.status = "Match" ↔ |jsRound (p - ep)| = 0) ∧
    (r.status = "Tolerance" ↔ 0 < |jsRound (p - ep)| ∧ |jsRound (p - ep)| ≤ tol) ∧
    (r.status = "Exception" ↔ ¬ |jsRound (p - ep)| = 0 ∧ ¬ |jsRound (p - ep)| ≤ tol) := by
  obtain ⟨-, -, -, -, -, -, hrows⟩ := reconcile_inv tol poCols erpCols poRows erpRows
  obtain ⟨hdiff, -, hstat⟩ := hrows r hmem p ep hpo herp
  refine ⟨hdiff, ?_, ?_, ?_⟩ <;> rw [hstat]
  · by_cases h0 : |jsRound (p - ep)| = 0
    · simp [h0]
    · by_cases h1 : |jsRound (p - ep)| ≤ tol <;> simp [h0, h1]
  · by_cases h0 : |jsRound (p - ep)| = 0
    · simp [h0]
    · have hpos : 0 < |jsRound (p - ep)| :=
        lt_of_le_of_ne (abs_nonneg _) (fun hh => h0 hh.symm)
      by_cases h1 : |jsRound (p - ep)| ≤ tol <;> simp [h0, h1, hpos]
  · by_cases h0 : |jsRound (p - ep)| = 0
    · simp [h0]
    · by_cases h1 : |jsRound (p - ep)| ≤ tol <;> simp [h0, h1]

/-- C6 (amended): For every matched PO row with numeric PO and ERP
prices: when `ep ≠ 0` the emitted `pctDiff` is `diff / ep × 100`
rounded at **two decimal places** (the same cent-rounding used for
`diff`, not a whole-number percent); when `ep = 0`, `pctDiff` is `100`
if `diff ≠ 0` and `0` otherwise. -/
theorem c6_pct_diff_amended (tol : ℚ) (poCols erpCols : Columns)
    (poRows erpRows : List SrcRow) (r : ResultRow) (p ep : ℚ)
    (hmem : r ∈ (reconcile tol poCols erpCols poRows erpRows).rows)
    (hpo : r.poPrice = some p) (herp : r.erpPrice = some ep) :
    r.pctDiff = some (if ep ≠ 0 then jsRound (jsRound (p - ep) / ep * 100)
      else if jsRound (p - ep) ≠ 0 then 100 else 0) := by
  obtain ⟨-, -, -, -, -, -, hrows⟩ := reconcile_inv tol poCols erpCols poRows erpRows
  exact (hrows r hmem p ep hpo herp).2.1

/-! ## Derived-document generators (`src/reconcile/creditnote.js`) -/

structure CreditRow where
  sku : String
  name : String
  qty : ℚ
  originalPrice : ℚ
  lineTotal : ℚ
  creditAmount : ℚ
deriving DecidableEq

structure CreditNote where
  creditRows : List CreditRow
  lineCount : ℕ
  totalCredit : ℚ
deriving DecidableEq

/-- `row.poQty || 1` — JS falsy coalescing on the credited quantity. -/
def creditQty (poQty : Option ℚ) : ℚ :=
  match poQty with
  | some q => if q = 0 then 1 else q
  | none => 1

/-- One iteration of the credit-note loop: skip ERP-only rows
(`"Not in PO"`) and rows with no usable PO price (`poPrice == null`);
credit every other line at its original PO price. -/
def creditStep (acc : List CreditRow × ℚ) (row : ResultRow) : List CreditRow × ℚ :=
  if row.status = "Not in PO" then acc
  else
    match row.poPrice with
    | none => acc
    | some poPrice =>
      let qty := creditQty row.poQty
      let lineTotal := jsRound (poPrice * qty)
      let creditAmount := jsRound (-lineTotal)
      (acc.1 ++ [{ sku := row.sku
                   name := row.name
                   qty := qty
                   originalPrice := poPrice
                   lineTotal := lineTotal
                   creditAmount := creditAmount }],
       jsRound (acc.2 + creditAmount))

/-- `generateCreditNote` from `creditnote.js`. -/
def generateCreditNote (results : ReconResult) : CreditNote :=
  let acc := results.rows.foldl creditStep ([], 0)
  { creditRows := acc.1
    lineCount := acc.1.length
    totalCredit := acc.2 }

/-- The credit lines the (amended) specification asks for: one line per
output row whose status is not `"Not in PO"` **and** whose `poPrice` is
present, with amount the negation of `jsRound (poPrice * qty)` at the
original PO price. -/
def creditRowsSpec : List ResultRow → List CreditRow
  | [] => []
  | r :: rest =>
    match r.poPrice with
    | none => creditRowsSpec rest
    | some p =>
      if r.status = "Not in PO" then creditRowsSpec rest
      else
        { sku := r.sku
          name := r.name
          qty := creditQty r.poQty
          originalPrice := p
          lineTotal := jsRound (p * creditQty r.poQty)
          creditAmount := -(jsRound (p * creditQty r.poQty)) } :: creditRowsSpec rest

theorem jsRound_cents (n : ℤ) : jsRound ((n : ℚ) / 100) = (n : ℚ) / 100 := by
  unfold jsRound
  have h1 : (n : ℚ) / 100 * 100 + 1 / 2 = n + 1 / 2 := by
    field_simp
  rw [h1]
  have h2 : ⌊(n : ℚ) + 1 / 2⌋ = n := by
    rw [Int.floor_eq_iff]
    constructor
    · linarith
    · linarith
  rw [h2]

theorem jsRound_neg_jsRound (q : ℚ) : jsRound (-(jsRound q)) = -(jsRound q) := by
  have h : -(jsRound q) = ((-⌊q * 100 + 1/2⌋ : ℤ) : ℚ) / 100 := by
    unfold jsRound
    push_cast
    ring
  rw [h, jsRound_cents]

theorem creditStep_fold (rows : List ResultRow) (acc : List CreditRow) (t : ℚ) :
    (rows.foldl creditStep (acc, t)).1 = acc ++ creditRowsSpec rows := by
  induction rows generalizing acc t with
  | nil => simp [creditRowsSpec]
  | cons r rest ih =>
    by_cases hst : r.status = "Not in PO"
    · cases hpo : r.poPrice with
      | none => simp [List.foldl, creditStep, creditRowsSpec, hst, hpo, ih]
      | some p => simp [List.foldl, creditStep, creditRowsSpec, hst, hpo, ih]
    · cases hpo : r.poPrice with
      | none => simp [List.foldl, creditStep, creditRowsSpec, hst, hpo, ih]
      | some p =>
        simp only [List.foldl, creditStep, creditRowsSpec, hst, hpo, if_neg hst, ih]
        rw [jsRound_neg_jsRound]
        simp

/-- C9 (amended): the credit-note generator emits one credit line for
every output row whose status is not `"Not in PO"` **and** whose
`poPrice` is present (rows whose PO price failed numeric parsing are
skipped as well), with amount the negation of `jsRound (poPrice × qty)`
at the original PO price, never the ERP price. -/
theorem c9_credit_note_amended (results : ReconResult) :
    (generateCreditNote results).creditRows = creditRowsSpec results.rows := by
  simp only [generateCreditNote]
  exact creditStep_fold results.rows [] 0

/-! ## Per-row matching behaviour (claims C1 and C10) -/

/-- The single output row `finishMatched` appends for a matched ERP
entry (warning when the ERP price is non-numeric, classified row
otherwise). -/
def matchedRow (tol : ℚ) (erpRows : List SrcRow) (rawSku poName : String)
    (isDup : Bool) (poQty poPrice : ℚ) (pfxSku? : Option String)
    (oracle : ErpEntry) : ResultRow :=
  match oracle.price with
  | none =>
    { status := "Warning", sku := rawSku
      name := if oracle.name = "" then poName else oracle.name
      erpPrice := none, poPrice := some poPrice, diff := none, pctDiff := none
      action := "Non-numeric ERP price", duplicate := isDup
      poQty := some poQty, erpQty := some oracle.qty
      lineTotal := some (jsRound (poPrice * poQty)) }
  | some erpPrice =>
    let diff := jsRound (poPrice - erpPrice)
    let absDiff := |diff|
    let pctDiff : ℚ :=
      if erpPrice ≠ 0 then jsRound (diff / erpPrice * 100)
      else if diff ≠ 0 then 100 else 0
    let st := if absDiff = 0 then "Match"
      else if absDiff ≤ tol then "Tolerance" else "Exception"
    let act0 := if absDiff = 0 then "OK"
      else if absDiff ≤ tol then "OK — within tolerance" else "Review pricing"
    { status := st, sku := rawSku
      erpSku := pfxSku?.map (fun k => denormalizeSku k erpRows)
      name := if oracle.name = "" then poName else oracle.name
      erpPrice := some erpPrice, poPrice := some poPrice
      diff := some diff, pctDiff := some pctDiff
      action := if pfxSku?.isSome && (act0 == "OK") then "OK (prefix match)" else act0
      duplicate := isDup, poQty := some poQty, erpQty := some oracle.qty
      lineTotal := some (jsRound (poPrice * poQty)) }

theorem finishMatched_eq (tol : ℚ) (erpRows : List SrcRow) (s : LoopState)
    (rawSku poName : String) (isDup : Bool) (poQty poPrice : ℚ)
    (pfxSku? : Option String) (oracleKey : String) (oracle : ErpEntry) :
    (finishMatched tol erpRows s rawSku poName isDup poQty poPrice pfxSku? oracleKey oracle).rows
        = s.rows ++ [matchedRow tol erpRows rawSku poName isDup poQty poPrice pfxSku? oracle] ∧
    (finishMatched tol erpRows s rawSku poName isDup poQty poPrice pfxSku? oracleKey oracle).erpMap
        = markMatched s.erpMap oracleKey := by
  cases hop : oracle.price with
  | none => simp [finishMatched, matchedRow, hop]
  | some erpPrice =>
    simp only [finishMatched, matchedRow, hop]
    by_cases h0 : |jsRound (poPrice - erpPrice)| = 0
    · rw [if_pos h0, if_pos h0, if_pos h0]
      exact ⟨rfl, rfl⟩
    · by_cases h1 : |jsRound (poPrice - erpPrice)| ≤ tol
      · rw [if_neg h0, if_neg h0, if_neg h0, if_pos h1, if_pos h1, if_pos h1]
        exact ⟨rfl, rfl⟩
      · rw [if_neg h0, if_neg h0, if_neg h0, if_neg h1, if_neg h1, if_neg h1]
        exact ⟨rfl, rfl⟩

theorem matchedRow_status (tol : ℚ) (erpRows : List SrcRow) (rawSku poName : String)
    (isDup : Bool) (poQty poPrice : ℚ) (pfxSku? : Option String) (oracle : ErpEntry) :
    ¬ ((matchedRow tol erpRows rawSku poName isDup poQty poPrice pfxSku? oracle).status
        = "Not in ERP") ∧
    ¬ ((matchedRow tol erpRows rawSku poName isDup poQty poPrice pfxSku? oracle).status
        = "Not in PO") := by
  cases hop : oracle.price with
  | none => simp [matchedRow, hop]
  | some erpPrice =>
    simp only [matchedRow, hop]
    by_cases h0 : |jsRound (poPrice - erpPrice)| = 0
    · rw [if_pos h0]
      exact ⟨by decide, by decide⟩
    · by_cases h1 : |jsRound (poPrice - erpPrice)| ≤ tol
      · rw [if_neg h0, if_pos h1]
        exact ⟨by decide, by decide⟩
      · rw [if_neg h0, if_neg h1]
        exact ⟨by decide, by decide⟩

theorem matchedRow_erpSku (tol : ℚ) (erpRows : List SrcRow) (rawSku poName : String)
    (isDup : Bool) (poQty poPrice : ℚ) (pfxSku? : Option String) (oracle : ErpEntry)
    (q : ℚ) (hq : oracle.price = some q) :
    (matchedRow tol erpRows rawSku poName isDup poQty poPrice pfxSku? oracle).erpSku
        = pfxSku?.map (fun k => denormalizeSku k erpRows) ∧
    (matchedRow tol erpRows rawSku poName isDup poQty poPrice pfxSku? oracle).erpPrice
        = some q := by
  simp [matchedRow, hq]

/-- C1: For every PO row that reaches matching (non-falsy SKU, numeric
price) and whose normalized SKU has no exact match in the ERP index:
when exactly one ERP normalized SKU extends it as a proper prefix, that
ERP entry is accepted as the match — its map entry is marked matched
and the emitted row is not `"Not in ERP"`, carrying the denormalized
ERP SKU (`matchType = prefix`) when the entry's price is numeric; when
two or more extend it, the row is emitted as a `Warning` whose action
lists every candidate SKU, no ERP entry is marked matched
(`erpMap` unchanged), and no price comparison is performed (`erpPrice`,
`diff`, `pctDiff` all absent). -/
theorem c1_prefix_match_resolution (tol : ℚ) (poCols : Columns) (erpRows : List SrcRow)
    (poDup : String → Bool) (erpDups : List String) (s : LoopState) (row : SrcRow) (p : ℚ)
    (hsku : ¬ (row.sku = ""))
    (hprice : parseNumber row.price = some p)
    (hexact : mapGet s.erpMap (normalizeSku row.sku) = none) :
    (∀ k e, findPrefixMatches (normalizeSku row.sku) s.erpMap = [(k, e)] →
      (processPoRow tol poCols erpRows poDup erpDups s row).erpMap = markMatched s.erpMap k ∧
      ∃ r, (processPoRow tol poCols erpRows poDup erpDups s row).rows = s.rows ++ [r] ∧
        ¬ (r.status = "Not in ERP") ∧ ¬ (r.status = "Not in PO") ∧
        (∀ q, e.price = some q →
          r.erpSku = some (denormalizeSku k erpRows) ∧ r.erpPrice = some q)) ∧
    (∀ x y rest, findPrefixMatches (normalizeSku row.sku) s.erpMap = x :: y :: rest →
      (processPoRow tol poCols erpRows poDup erpDups s row).erpMap = s.erpMap ∧
      (processPoRow tol poCols erpRows poDup erpDups s row).warnings = s.warnings + 1 ∧
      (processPoRow tol poCols erpRows poDup erpDups s row).rows = s.rows ++
        [{ status := "Warning", sku := row.sku, erpSku := none
           name := if poCols.hasName then row.name else ""
           erpPrice := none, poPrice := some p, diff := none, pctDiff := none
           action := "Multiple ERP matches: "
             ++ String.intercalate ", " ((x :: y :: rest).map (fun pr => pr.1))
           duplicate := poDup (normalizeSku row.sku) || erpDups.contains (normalizeSku row.sku)
           poQty := some (if poCols.hasQty then orOne (parseNumber row.qty) else 1)
           erpQty := none
           lineTotal := some (jsRound (p * (if poCols.hasQty then orOne (parseNumber row.qty) else 1))) }]) := by
  constructor
  · intro k e hfp
    simp only [processPoRow, hsku, hprice, hexact, hfp, if_false]
    obtain ⟨hrows, hmap⟩ := finishMatched_eq tol erpRows s row.sku
      (if poCols.hasName then row.name else "")
      (poDup (normalizeSku row.sku) || erpDups.contains (normalizeSku row.sku))
      (if poCols.hasQty then orOne (parseNumber row.qty) else 1) p (some k) k e
    refine ⟨hmap, matchedRow tol erpRows row.sku
      (if poCols.hasName then row.name else "")
      (poDup (normalizeSku row.sku) || erpDups.contains (normalizeSku row.sku))
      (if poCols.hasQty then orOne (parseNumber row.qty) else 1) p (some k) e,
      hrows, (matchedRow_status tol erpRows _ _ _ _ _ _ _).1,
      (matchedRow_status tol erpRows _ _ _ _ _ _ _).2, ?_⟩
    intro q hq
    have h2 := matchedRow_erpSku tol erpRows row.sku
      (if poCols.hasName then row.name else "")
      (poDup (normalizeSku row.sku) || erpDups.contains (normalizeSku row.sku))
      (if poCols.hasQty then orOne (parseNumber row.qty) else 1) p (some k) e q hq
    simpa using h2
  · intro x y rest hfp
    simp only [processPoRow, hsku, hprice, hexact, hfp, if_false]
    exact ⟨trivial, trivial, trivial⟩

/-- C10: A PO row whose SKU cell is a non-empty, all-whitespace string
is *not* skipped (only the falsy `""` is): its normalized SKU is `""`,
which has no exact ERP match (assuming no ERP key is itself empty) and
is a proper prefix of every ERP key, so the row always emits exactly
one output row; with exactly one ERP entry it is silently
prefix-matched against that arbitrary entry, and with two or more the
row becomes a `Warning` whose action lists every ERP SKU. -/
theorem c10_whitespace_sku (tol : ℚ) (poCols : Columns) (erpRows : List SrcRow)
    (poDup : String → Bool) (erpDups : List String) (s : LoopState) (row : SrcRow) (p : ℚ)
    (hsku : ¬ (row.sku = ""))
    (hws : row.sku.trim = "")
    (hprice : parseNumber row.price = some p)
    (hkeys : ∀ pr ∈ s.erpMap, ¬ (pr.1 = "")) :
    (∃ r, (processPoRow tol poCols erpRows poDup erpDups s row).rows = s.rows ++ [r]) ∧
    (∀ k e, s.erpMap = [(k, e)] →
      (processPoRow tol poCols erpRows poDup erpDups s row).erpMap = markMatched s.erpMap k) ∧
    (∀ x y rest, s.erpMap = x :: y :: rest →
      (processPoRow tol poCols erpRows poDup erpDups s row).warnings = s.warnings + 1 ∧
      (processPoRow tol poCols erpRows poDup erpDups s row).rows = s.rows ++
        [{ status := "Warning", sku := row.sku, erpSku := none
           name := if poCols.hasName then row.name else ""
           erpPrice := none, poPrice := some p, diff := none, pctDiff := none
           action := "Multiple ERP matches: "
             ++ String.intercalate ", " ((x :: y :: rest).map (fun pr => pr.1))
           duplicate := poDup (normalizeSku row.sku) || erpDups.contains (normalizeSku row.sku)
           poQty := some (if poCols.hasQty then orOne (parseNumber row.qty) else 1)
           erpQty := none
           lineTotal := some (jsRound (p * (if poCols.hasQty then orOne (parseNumber row.qty) else 1))) }]) := by
  have hnorm : normalizeSku row.sku = "" := by
    unfold normalizeSku
    rw [hws]
    with_unfolding_all decide
  have hfind : s.erpMap.find? (fun pr => pr.1 == "") = none :=
    List.find?_eq_none.mpr (fun x hx => by simpa using hkeys x hx)
  have hexact : mapGet s.erpMap "" = none := by
    simp [mapGet, hfind]
  have hfpm : findPrefixMatches "" s.erpMap = s.erpMap := by
    unfold findPrefixMatches
    apply List.filter_eq_self.mpr
    intro a ha
    have h1 : strStartsWith a.1 "" = true := by
      simp [strStartsWith]
    have h2 : (a.1 == "") = false := by
      simpa using hkeys a ha
    simp [h1, h2]
  refine ⟨?_, ?_, ?_⟩
  · rcases hm : s.erpMap with _ | ⟨x, xs⟩
    · have hfp0 : findPrefixMatches "" s.erpMap = [] := by
        rw [hfpm, hm]
      simp only [processPoRow, hsku, hprice, hnorm, hexact, hfp0, if_false]
      exact ⟨_, rfl⟩
    · rcases xs with _ | ⟨y, rest⟩
      · have hfp1 : findPrefixMatches "" s.erpMap = [x] := by
          rw [hfpm, hm]
        simp only [processPoRow, hsku, hprice, hnorm, hexact, hfp1, if_false]
        exact ⟨_, (finishMatched_eq tol erpRows s row.sku _ _ _ p (some x.1) x.1 x.2).1⟩
      · have hfp2 : findPrefixMatches "" s.erpMap = x :: y :: rest := by
          rw [hfpm, hm]
        simp only [processPoRow, hsku, hprice, hnorm, hexact, hfp2, if_false]
        exact ⟨_, rfl⟩
  · intro k e hm
    have hfp1 : findPrefixMatches "" s.erpMap = [(k, e)] := by
      rw [hfpm, hm]
    simp only [processPoRow, hsku, hprice, hnorm, hexact, hfp1, if_false]
    exact (finishMatched_eq tol erpRows s row.sku _ _ _ p (some k) k e).2
  · intro x y rest hm
    have hfp2 : findPrefixMatches "" s.erpMap = x :: y :: rest := by
      rw [hfpm, hm]
    simp only [processPoRow, hsku, hprice, hnorm, hexact, hfp2, if_false]
    exact ⟨trivial, trivial⟩

/-! ## Header Locator claims (C8) -/

/-- C8 counterexample: on the two-row table `[["a","b"], ["x","y","z"]]`
no candidate auto-resolves, the single candidate with the most header
cells is row 1 (3 cells vs 2), yet `findBestTable` returns row 0's
headers `["a","b"]` — because row 1, despite having the most header
cells, has no data row below it and is skipped by the fallback walk.
This refutes the claim that the fallback is always "the single
candidate with the most header cells". -/
theorem c8_counterexample :
    (findBestTable [[some "a", some "b"], [some "x", some "y", some "z"]] true).toOption
        = some { headers := ["a", "b"], rows := [["x", "y"]], autoDetected := false }
    ∧ rankHeaderCandidates [[some "a", some "b"], [some "x", some "y", some "z"]] = [1, 0]
    ∧ headerCount [[some "a", some "b"], [some "x", some "y", some "z"]] 1 = 3
    ∧ headerCount [[some "a", some "b"], [some "x", some "y", some "z"]] 0 = 2 := by
  with_unfolding_all decide

/-- C8 (amended): For every raw table with at least 2 rows, the Header
Locator walks the score-ranked candidates in order and accepts the
first passing `autoStep` (both `sku` and `price` resolve and a
non-empty data row exists below); if no candidate auto-resolves, it
falls back to the first candidate in order of most header cells (ties
by candidate rank) *that has at least one non-empty data row below it*,
returned as a non-error result for manual column selection; when no
candidate qualifies at all it fails (or returns the empty
manual-selection result when not throwing). -/
theorem c8_fallback_amended (rawRows : List (List RawCell)) (throwOnFail : Bool)
    (h2 : 2 ≤ rawRows.length) :
    findBestTable rawRows throwOnFail = findBestTableSpec rawRows throwOnFail := by
  have hlt : ¬ (rawRows.length < 2) := by omega
  simp only [findBestTable, findBestTableSpec, if_neg hlt,
    autoLoop_eq_findSome, fallbackLoop_eq_findSome]

theorem c8_fallback_amended_witness :
    2 ≤ ([[some "a", some "b"], [some "x", some "y", some "z"]] : List (List RawCell)).length
    ∧ findBestTable [[some "a", some "b"], [some "x", some "y", some "z"]] true
        = findBestTableSpec [[some "a", some "b"], [some "x", some "y", some "z"]] true :=
  ⟨by decide, c8_fallback_amended _ true (by decide)⟩

/-! ## Witnesses and counterexamples on concrete runs -/

instance : Inhabited ResultRow :=
  ⟨{ status := "", sku := "", erpSku := none, name := "", erpPrice := none
     poPrice := none, diff := none, pctDiff := none, action := ""
     duplicate := false, poQty := none, erpQty := none, lineTotal := none }⟩

/-- The tolerance-boundary scenario: PO `10.00` vs ERP `9.99` at
tolerance `0.02`. -/
def c2res : ReconResult :=
  reconcile (2/100) {} {} [{ sku := "A", price := "10.00" }] [{ sku := "A", price := "9.99" }]

theorem c2_witness :
    c2res.rows.headI.poPrice = some 10 ∧ c2res.rows.headI.erpPrice = some (999/100) ∧
    c2res.rows.headI.status = "Tolerance" ∧
    (c2res.rows.headI.status = "Tolerance" ↔
      0 < |jsRound ((10:ℚ) - 999/100)| ∧ |jsRound ((10:ℚ) - 999/100)| ≤ 2/100) := by
  have hmap : c2res.rows.map (fun r => (r.status, r.poPrice, r.erpPrice))
      = [("Tolerance", some 10, some (999/100))] := by
    with_unfolding_all decide
  have hlen : c2res.rows.length = 1 := by
    have h := congrArg List.length hmap
    simpa using h
  cases hrows : c2res.rows with
  | nil => rw [hrows] at hlen; simp at hlen
  | cons a t =>
    have ht : t = [] := by
      rw [hrows] at hlen
      simpa using hlen
    subst ht
    rw [hrows] at hmap
    simp only [List.map_cons, List.map_nil, List.cons.injEq, Prod.mk.injEq] at hmap
    obtain ⟨⟨hst, hpo, herp⟩, -⟩ := hmap
    have hmem : a ∈ c2res.rows := by
      rw [hrows]
      exact List.mem_cons_self a []
    have hthm := c2_price_classification (2/100) {} {} [{ sku := "A", price := "10.00" }]
      [{ sku := "A", price := "9.99" }] a 10 (999/100) hmem hpo herp
    simp only [List.headI]
    exact ⟨hpo, herp, hst, hthm.2.2.1⟩

/-- C6 counterexample: PO `10.05` vs ERP `10.00`.  The emitted `pctDiff`
is `0.5` (the percentage rounded at two decimals), while the claim's
whole-number rounding of `diff / erpPrice × 100` would give `1`. -/
theorem c6_counterexample :
    ((reconcile (2/100) {} {} [{ sku := "A", price := "10.05" }]
        [{ sku := "A", price := "10.00" }]).rows.map (fun r => r.pctDiff)) = [some (1/2)]
    ∧ jsRound0 (jsRound ((1005:ℚ)/100 - 10) / 10 * 100) = 1
    ∧ ¬ ((1/2 : ℚ) = 1) := by
  with_unfolding_all decide

/-- Same run as the C6 counterexample, used by the amended theorem's
witness. -/
def c6res : ReconResult :=
  reconcile (2/100) {} {} [{ sku := "A", price := "10.05" }] [{ sku := "A", price := "10.00" }]

theorem c6_witness :
    c6res.rows.headI.poPrice = some (1005/100) ∧ c6res.rows.headI.erpPrice = some 10 ∧
    c6res.rows.headI.pctDiff
      = some (if (10:ℚ) ≠ 0 then jsRound (jsRound ((1005:ℚ)/100 - 10) / 10 * 100)
        else if jsRound ((1005:ℚ)/100 - 10) ≠ 0 then 100 else 0) := by
  have hmap : c6res.rows.map (fun r => (r.poPrice, r.erpPrice))
      = [(some (1005/100), some 10)] := by
    with_unfolding_all decide
  have hlen : c6res.rows.length = 1 := by
    have h := congrArg List.length hmap
    simpa using h
  cases hrows : c6res.rows with
  | nil => rw [hrows] at hlen; simp at hlen
  | cons a t =>
    have ht : t = [] := by
      rw [hrows] at hlen
      simpa using hlen
    subst ht
    rw [hrows] at hmap
    simp only [List.map_cons, List.map_nil, List.cons.injEq, Prod.mk.injEq] at hmap
    obtain ⟨⟨hpo, herp⟩, -⟩ := hmap
    have hmem : a ∈ c6res.rows := by
      rw [hrows]
      exact List.mem_cons_self a []
    have hthm := c6_pct_diff_amended (2/100) {} {} [{ sku := "A", price := "10.05" }]
      [{ sku := "A", price := "10.00" }] a (1005/100) 10 hmem hpo herp
    simp only [List.headI]
    exact ⟨hpo, herp, hthm⟩

/-- C9 counterexample: a PO row with a non-numeric price becomes a
`Warning` output row — not `"Not in PO"` — yet the credit-note
generator emits no credit line for it (its `poPrice` is null), refuting
"a credit line for every output row whose status is not Not-in-PO". -/
theorem c9_counterexample :
    ((reconcile 0 {} {} [{ sku := "A", price := "abc" }] []).rows.map (fun r => r.status)
        = ["Warning"])
    ∧ (generateCreditNote (reconcile 0 {} {} [{ sku := "A", price := "abc" }] [])).creditRows
        = [] := by
  with_unfolding_all decide

/-- The loop state of the C1 witness: an ERP index holding the two
variant SKUs `1234V001` and `1234V002`. -/
def c1state : LoopState :=
  { erpMap := [("1234V001", { price := some 5, name := "", qty := 1, matched := false }),
               ("1234V002", { price := some 6, name := "", qty := 1, matched := false })]
    «matches» := 0, tolerances := 0, exceptions := 0, exposure := 0, warnings := 0, rows := [] }

theorem c1_witness :
    (¬ (("1234" : String) = "")) ∧ parseNumber "5" = some 5 ∧
    mapGet c1state.erpMap (normalizeSku "1234") = none ∧
    (processPoRow 0 {} [] (fun _ => false) [] c1state { sku := "1234", price := "5" }).erpMap
        = c1state.erpMap ∧
    (processPoRow 0 {} [] (fun _ => false) [] c1state { sku := "1234", price := "5" }).warnings
        = c1state.warnings + 1 := by
  have h := (c1_prefix_match_resolution 0 {} [] (fun _ => false) [] c1state
      { sku := "1234", price := "5" } 5 (by decide) (by with_unfolding_all decide)
      (by with_unfolding_all decide)).2
      ("1234V001", { price := some 5, name := "", qty := 1, matched := false })
      ("1234V002", { price := some 6, name := "", qty := 1, matched := false }) []
      (by with_unfolding_all decide)
  exact ⟨by decide, by with_unfolding_all decide, by with_unfolding_all decide, h.1, h.2.1⟩

/-- The loop state of the C10 witness: an ERP index holding the two
SKUs `A1` and `B2`. -/
def c10state : LoopState :=
  { erpMap := [("A1", { price := some 5, name := "", qty := 1, matched := false }),
               ("B2", { price := some 6, name := "", qty := 1, matched := false })]
    «matches» := 0, tolerances := 0, exceptions := 0, exposure := 0, warnings := 0, rows := [] }

theorem c10_witness :
    (¬ (("   " : String) = "")) ∧ ("   " : String).trim = "" ∧ parseNumber "7" = some 7 ∧
    (∀ pr ∈ c10state.erpMap, ¬ (pr.1 = "")) ∧
    (processPoRow 0 {} [] (fun _ => false) [] c10state { sku := "   ", price := "7" }).warnings
        = c10state.warnings + 1 := by
  have h := (c10_whitespace_sku 0 {} [] (fun _ => false) [] c10state
      { sku := "   ", price := "7" } 7 (by decide) (by with_unfolding_all decide)
      (by with_unfolding_all decide) (by decide)).2.2
      ("A1", { price := some 5, name := "", qty := 1, matched := false })
      ("B2", { price := some 6, name := "", qty := 1, matched := false }) [] rfl
  exact ⟨by decide, by with_unfolding_all decide, by with_unfolding_all decide, by decide, h.1⟩

end PoRecon
